import Mathlib

/-!
Verification development for the request-orchestration core of the
`llm-code-analyzer` repository: a token-bucket rate limiter and bounded
request queue (`src/providers/claude/rateLimiter.ts`), a content-addressed
TTL response cache (`cache.ts`), an exponential-backoff retry helper
(`retry.ts`), and the orchestrating `ClaudeProvider`
(`src/providers/claude/ClaudeProvider.ts`).

Conventions of the embedding:
* JavaScript numbers (timestamps in milliseconds, token counts, delays) are
  modelled as exact rationals `ℚ`.
* Thrown JavaScript errors are modelled with `Except JsError`; an `async`
  function that can reject is a function into `Except`.
* `Date.now()` and `Math.random()` are external inputs: every operation takes
  the current time explicitly, and random draws come from an explicit oracle
  `rand : Nat → ℚ` with values in `[0, 1)`.
* Node's `crypto.createHash("sha256")` is external to the repository; it is
  passed in as a parameter `hash : String → Except JsError String`, so that
  both its ideal behaviour (an injective digest, here the identity embedding
  `okHash`) and a faulting hasher can be instantiated.
-/

namespace LlmAnalyzer

/-- Model of a thrown JavaScript error value as inspected by `retry.ts`:
`message`, `type`, `code`, `status`, `statusCode`.  Absent numeric fields are
`none`; absent string fields are the empty string (JS falsy). -/
structure JsError where
  message : String
  etype : String
  code : String
  status : Option Int
  statusCode : Option Int
deriving DecidableEq, Repr

/-- JSON values appearing in the option objects passed to the cache
(`\x7blanguage: string, rules: string[]\x7d` and, for the general claims,
arbitrary string/array-valued records). -/
inductive JValue where
  | str (s : String)
  | arr (elems : List String)
deriving DecidableEq, Repr

/-- Escaping of `"` and `\` performed by `JSON.stringify` on strings. -/
def jsonEscape (s : String) : String :=
  String.join (s.toList.map (fun c =>
    if c = '"' then "\\\"" else if c = '\\' then "\\\\" else String.singleton c))

/-- Serialization of a `JValue` in the way `JSON.stringify` renders it. -/
def JValue.stringify : JValue → String
  | .str s => "\"" ++ jsonEscape s ++ "\""
  | .arr xs =>
      "[" ++ String.intercalate "," (xs.map (fun s => "\"" ++ jsonEscape s ++ "\"")) ++ "]"

/-- Serialization of an object by `JSON.stringify`: keys are rendered in
insertion order (this is the JavaScript semantics; `JSON.stringify` performs
no canonicalization of key order). -/
def jsonStringifyObj (pairs : List (String × JValue)) : String :=
  "\x7b" ++
    String.intercalate ","
      (pairs.map (fun kv => "\"" ++ jsonEscape kv.1 ++ "\":" ++ kv.2.stringify)) ++
  "\x7d"

/-- Ideal model of the external sha256 digest: collision-free (injective) and
never failing, as the spec assumes of a cryptographic hash.  Injectivity is
realized by the identity embedding. -/
def okHash : String → Except JsError String := fun s => .ok s

/-! ## Response cache (`src/providers/claude/cache.ts`) -/

/-- `CacheEntry<T>` from `cache.ts`: value, write timestamp, ttl (ms). -/
structure CacheEntry (T : Type) where
  value : T
  timestamp : ℚ
  ttl : ℚ
deriving DecidableEq, Repr

/-- `ResponseCache<T>` state: the backing `Map` (modelled as an association
list with `Map.set`/`Map.get`/`Map.delete` semantics) and the default TTL. -/
structure ResponseCache (T : Type) where
  cache : List (String × CacheEntry T)
  defaultTTL : ℚ
deriving DecidableEq, Repr

/-- JavaScript `Map.prototype.set`: replace the binding in place if the key is
present, otherwise append it. -/
def mapSet {α : Type} (m : List (String × α)) (k : String) (v : α) : List (String × α) :=
  match m with
  | [] => [(k, v)]
  | (k₁, v₁) :: rest => if k₁ = k then (k, v) :: rest else (k₁, v₁) :: mapSet rest k v

/-- JavaScript `Map.prototype.delete`. -/
def mapDelete {α : Type} (m : List (String × α)) (k : String) : List (String × α) :=
  m.filter (fun p => p.1 != k)

/-- `ResponseCache.generateKey`: sha256 of the content followed by
`JSON.stringify(options)` when options are present (two `hash.update` calls
digest the concatenation of their arguments). -/
def ResponseCache.generateKey (hash : String → Except JsError String)
    (content : String) (options : Option (List (String × JValue))) :
    Except JsError String :=
  match options with
  | some o => hash (content ++ jsonStringifyObj o)
  | none => hash content

/-- `ResponseCache.get`: derive the key, look it up, and lazily expire the
entry when `now - entry.timestamp > entry.ttl`.  Returns the value (or `none`)
together with the possibly-updated cache; a hashing fault propagates (there is
no try/catch in `cache.ts`). -/
def ResponseCache.get {T : Type} (c : ResponseCache T)
    (hash : String → Except JsError String) (now : ℚ) (content : String)
    (options : Option (List (String × JValue))) :
    Except JsError (Option T × ResponseCache T) :=
  match ResponseCache.generateKey hash content options with
  | .error e => .error e
  | .ok key =>
    match c.cache.lookup key with
    | none => .ok (none, c)
    | some entry =>
      if now - entry.timestamp > entry.ttl then
        .ok (none, { c with cache := mapDelete c.cache key })
      else
        .ok (some entry.value, c)

/-- The `ttl || this.defaultTTL` idiom of `ResponseCache.set`: an absent or
zero (falsy) ttl argument falls back to the default. -/
def ttlOrDefault (ttl : Option ℚ) (dflt : ℚ) : ℚ :=
  match ttl with
  | some t => if t = 0 then dflt else t
  | none => dflt

/-- `ResponseCache.set`: store the value under the derived key with the
current timestamp and the requested (or default) ttl. -/
def ResponseCache.set {T : Type} (c : ResponseCache T)
    (hash : String → Except JsError String) (now : ℚ) (content : String)
    (value : T) (options : Option (List (String × JValue))) (ttl : Option ℚ) :
    Except JsError (ResponseCache T) :=
  match ResponseCache.generateKey hash content options with
  | .error e => .error e
  | .ok key =>
    .ok { c with
          cache := mapSet c.cache key
            { value := value, timestamp := now, ttl := ttlOrDefault ttl c.defaultTTL } }

/-- `ResponseCache.cleanup`: eagerly sweep all expired entries. -/
def ResponseCache.cleanup {T : Type} (c : ResponseCache T) (now : ℚ) : ResponseCache T :=
  { c with cache := c.cache.filter (fun p => decide (now - p.2.timestamp ≤ p.2.ttl)) }

/-- `ResponseCache.clear`. -/
def ResponseCache.clear {T : Type} (c : ResponseCache T) : ResponseCache T :=
  { c with cache := [] }

/-! ## Retry policy (`src/providers/claude/retry.ts`) -/

/-- `Required<RetryOptions>`: the fully-merged retry configuration. -/
structure RetryOptions where
  maxRetries : Nat
  baseDelay : ℚ
  maxDelay : ℚ
  backoffMultiplier : ℚ
  retryableErrors : List String
deriving Repr

/-- `DEFAULT_RETRY_OPTIONS` from `retry.ts`. -/
def DEFAULT_RETRY_OPTIONS : RetryOptions :=
  { maxRetries := 3
    baseDelay := 1000
    maxDelay := 30000
    backoffMultiplier := 2
    retryableErrors :=
      ["rate_limit_error", "timeout", "server_error", "network_error",
       "ECONNRESET", "ETIMEDOUT", "ENOTFOUND"] }

/-- The caller-facing partial `RetryOptions` (all fields optional). -/
structure RetryOptionsArg where
  maxRetries : Option Nat
  baseDelay : Option ℚ
  maxDelay : Option ℚ
  backoffMultiplier : Option ℚ
  retryableErrors : Option (List String)
deriving Repr

/-- The `\x7b...DEFAULT_RETRY_OPTIONS, ...options\x7d` spread-merge. -/
def mergeRetryOptions (o : RetryOptionsArg) : RetryOptions :=
  { maxRetries := o.maxRetries.getD DEFAULT_RETRY_OPTIONS.maxRetries
    baseDelay := o.baseDelay.getD DEFAULT_RETRY_OPTIONS.baseDelay
    maxDelay := o.maxDelay.getD DEFAULT_RETRY_OPTIONS.maxDelay
    backoffMultiplier := o.backoffMultiplier.getD DEFAULT_RETRY_OPTIONS.backoffMultiplier
    retryableErrors := o.retryableErrors.getD DEFAULT_RETRY_OPTIONS.retryableErrors }

/-- Does the character list `s` start with `pat`? -/
def leadsWith : List Char → List Char → Bool
  | _, [] => true
  | [], _ :: _ => false
  | c :: cs, d :: ds => c == d && leadsWith cs ds

/-- Does the character list `s` contain `pat` as a contiguous segment? -/
def hasSeg : List Char → List Char → Bool
  | [], pat => leadsWith [] pat
  | _c :: cs, pat => leadsWith (_c :: cs) pat || hasSeg cs pat

/-- JavaScript `String.prototype.includes` (substring containment; the empty
pattern is contained in every string). -/
def strIncludes (s pat : String) : Bool :=
  hasSeg s.toList pat.toList

/-- `isRetryableError` from `retry.ts`: match message or `type || code || ""`
against the configured signatures, else accept status 429/503/500.  A null
error is not retryable. -/
def isRetryableError (error : Option JsError) (retryableErrors : List String) : Bool :=
  match error with
  | none => false
  | some e =>
    let errorMessage := e.message
    let errorType := if e.etype = "" then e.code else e.etype
    let statusCode : Option Int :=
      match e.status with
      | some s => if s = 0 then e.statusCode else some s
      | none => e.statusCode
    if retryableErrors.any (fun t => strIncludes errorMessage t || strIncludes errorType t) then
      true
    else if statusCode = some 429 || statusCode = some 503 || statusCode = some 500 then
      true
    else
      false

/-- `calculateDelay` from `retry.ts`, with the `Math.random()` draw `r` made
explicit: cap the exponential delay at `maxDelay`, then add up to 10%
multiplicative jitter. -/
def calculateDelay (attempt : Nat) (baseDelay maxDelay backoffMultiplier r : ℚ) : ℚ :=
  let exponentialDelay := baseDelay * backoffMultiplier ^ attempt
  let delay := min exponentialDelay maxDelay
  let jitter := delay * (1 / 10) * r
  delay + jitter

/-- The retry loop of `withRetry`, from attempt index `attempt` on.  `fn i` is
the outcome of the `i`-th invocation of the wrapped action; `rand i` is the
jitter draw used after attempt `i`.  Returns the final outcome, the number of
invocations of `fn` performed, and the list of delays slept (in order). -/
def withRetryGo {α : Type} (fn : Nat → Except JsError α) (opts : RetryOptions)
    (rand : Nat → ℚ) (attempt : Nat) : Except JsError α × Nat × List ℚ :=
  match fn attempt with
  | .ok a => (.ok a, 1, [])
  | .error e =>
    if h : opts.maxRetries ≤ attempt then
      (.error e, 1, [])
    else if isRetryableError (some e) opts.retryableErrors then
      let d := calculateDelay attempt opts.baseDelay opts.maxDelay opts.backoffMultiplier
        (rand attempt)
      let rest := withRetryGo fn opts rand (attempt + 1)
      (rest.1, rest.2.1 + 1, d :: rest.2.2)
    else
      (.error e, 1, [])
termination_by opts.maxRetries - attempt
decreasing_by omega

/-- `withRetry` from `retry.ts`: merge the options with the defaults and run
the retry loop from attempt 0. -/
def withRetry {α : Type} (fn : Nat → Except JsError α) (options : RetryOptionsArg)
    (rand : Nat → ℚ) : Except JsError α × Nat × List ℚ :=
  withRetryGo fn (mergeRetryOptions options) rand 0

/-! ## Rate limiter (`src/providers/claude/rateLimiter.ts`, class `RateLimiter`) -/

/-- `RateLimiter` state: current tokens, capacity, refill rate (tokens per
second) and the `lastRefill` timestamp (ms). -/
structure RateLimiter where
  tokens : ℚ
  maxTokens : ℚ
  refillRate : ℚ
  lastRefill : ℚ
deriving DecidableEq, Repr

/-- The `RateLimiter` constructor. -/
def RateLimiter.mk0 (maxTokens refillRate now : ℚ) : RateLimiter :=
  { tokens := maxTokens, maxTokens := maxTokens, refillRate := refillRate, lastRefill := now }

/-- `RateLimiter.refill`: lazily credit `elapsedSeconds * refillRate` tokens,
clamped above by `maxTokens`, and advance `lastRefill` to `now`. -/
def RateLimiter.refill (rl : RateLimiter) (now : ℚ) : RateLimiter :=
  let timePassed := (now - rl.lastRefill) / 1000
  let tokensToAdd := timePassed * rl.refillRate
  { rl with tokens := min rl.maxTokens (rl.tokens + tokensToAdd), lastRefill := now }

/-- `RateLimiter.tryConsume`: refill, then consume if enough tokens. -/
def RateLimiter.tryConsume (rl : RateLimiter) (now : ℚ) (tokens : ℚ) :
    Bool × RateLimiter :=
  let rl₁ := rl.refill now
  if tokens ≤ rl₁.tokens then (true, { rl₁ with tokens := rl₁.tokens - tokens })
  else (false, rl₁)

/-- `RateLimiter.waitForToken`: refill; if enough tokens, consume and return
at once.  Otherwise sleep `(tokens - available) / refillRate` seconds and then
set the token count to 0 ("consume all available tokens after waiting") —
without touching `lastRefill`, which stays at the pre-wait refill time.
Returns the completion time together with the new state. -/
def RateLimiter.waitForToken (rl : RateLimiter) (now : ℚ) (tokens : ℚ) :
    ℚ × RateLimiter :=
  let rl₁ := rl.refill now
  if tokens ≤ rl₁.tokens then (now, { rl₁ with tokens := rl₁.tokens - tokens })
  else
    let tokensNeeded := tokens - rl₁.tokens
    let waitTime := tokensNeeded / rl₁.refillRate * 1000
    (now + waitTime, { rl₁ with tokens := 0 })

/-- `RateLimiter.getTokens`: refill, then report the current count. -/
def RateLimiter.getTokens (rl : RateLimiter) (now : ℚ) : ℚ × RateLimiter :=
  let rl₁ := rl.refill now
  (rl₁.tokens, rl₁)

/-- `RateLimiter.reset`. -/
def RateLimiter.reset (rl : RateLimiter) (now : ℚ) : RateLimiter :=
  { rl with tokens := rl.maxTokens, lastRefill := now }

/-- One rate-limiter operation of the public interface. -/
inductive LimiterOp where
  | tryConsume (tokens : ℚ)
  | waitForToken (tokens : ℚ)
  | getTokens
  | reset
deriving Repr

/-- State transition of one limiter operation invoked at time `now`. -/
def applyLimiterOp (rl : RateLimiter) (now : ℚ) : LimiterOp → RateLimiter
  | .tryConsume n => (rl.tryConsume now n).2
  | .waitForToken n => (rl.waitForToken now n).2
  | .getTokens => (rl.getTokens now).2
  | .reset => rl.reset now

/-- Run a timed sequence of limiter operations. -/
def runLimiter (rl : RateLimiter) : List (ℚ × LimiterOp) → RateLimiter
  | [] => rl
  | (t, op) :: rest => runLimiter (applyLimiterOp rl t op) rest

/-- A requested token amount is a (nonnegative) token count. -/
def limiterOpOk : LimiterOp → Bool
  | .tryConsume n => decide (0 ≤ n)
  | .waitForToken n => decide (0 ≤ n)
  | .getTokens => true
  | .reset => true

/-- Trace validity: call times never precede `t₀` (the clock is monotone) and
every requested amount is nonnegative. -/
def limiterTraceOk (t₀ : ℚ) : List (ℚ × LimiterOp) → Bool
  | [] => true
  | (t, op) :: rest => decide (t₀ ≤ t) && limiterOpOk op && limiterTraceOk t rest

/-! ## Request queue (`src/providers/claude/rateLimiter.ts`, class `RequestQueue`)

The queued closures are identified by the order in which `enqueue` was called:
`nextId` counts enqueues, `queue` holds the ids of pending (not yet started)
tasks in FIFO order, `processing` the ids of in-flight tasks (the source's
`processing` counter is its length), and `settled` the ids whose `enqueue`
promise has been resolved or rejected. -/

structure RequestQueue where
  queue : List Nat
  processing : List Nat
  maxConcurrent : Nat
  settled : List Nat
  nextId : Nat
deriving DecidableEq, Repr

/-- The `RequestQueue` constructor. -/
def RequestQueue.mk0 (maxConcurrent : Nat) : RequestQueue :=
  { queue := [], processing := [], maxConcurrent := maxConcurrent, settled := [], nextId := 0 }

/-- One pass of `processQueue`: if a concurrency slot is free and a task is
pending, shift it off the front of the queue and start it (increment
`processing`).  A single pass starts at most one task. -/
def RequestQueue.processQueue (q : RequestQueue) : RequestQueue :=
  if q.maxConcurrent ≤ q.processing.length then q
  else
    match q.queue with
    | [] => q
    | id :: rest => { q with queue := rest, processing := q.processing ++ [id] }

/-- `RequestQueue.enqueue`: push the wrapped request onto the queue and run a
dispatch pass. -/
def RequestQueue.enqueue (q : RequestQueue) : RequestQueue :=
  RequestQueue.processQueue
    { q with queue := q.queue ++ [q.nextId], nextId := q.nextId + 1 }

/-- Completion of in-flight task `id` (success or failure): its promise
settles, the `finally` block decrements `processing` and runs a dispatch
pass.  Completion of a task that is not in flight is a no-op. -/
def RequestQueue.complete (q : RequestQueue) (id : Nat) : RequestQueue :=
  if id ∈ q.processing then
    RequestQueue.processQueue
      { q with processing := q.processing.erase id, settled := q.settled ++ [id] }
  else q

/-- `RequestQueue.clear`: drop all not-yet-started tasks. -/
def RequestQueue.clear (q : RequestQueue) : RequestQueue :=
  { q with queue := [] }

/-- Externally visible queue events: an `enqueue` call, the completion of one
in-flight task, or a `clear` call. -/
inductive QEvent where
  | enqueue
  | complete (id : Nat)
  | clear
deriving DecidableEq, Repr

/-- Queue state transition for one event. -/
def qstep (q : RequestQueue) : QEvent → RequestQueue
  | .enqueue => q.enqueue
  | .complete id => q.complete id
  | .clear => q.clear

/-- Run a sequence of queue events. -/
def runQueue (q : RequestQueue) : List QEvent → RequestQueue
  | [] => q
  | e :: rest => runQueue (qstep q e) rest

/-! ## Orchestrator (`src/providers/claude/ClaudeProvider.ts`)

The provider composes cache, queue, rate limiter and retry policy.  The
response type is abstract (`α` stands for the parsed
`ClaudeAnalysisResponse`); the Anthropic client together with
`callClaudeAPI`'s response parsing is an external collaborator, modelled as an
oracle `remote : Nat → Except JsError α` giving the outcome of the `i`-th
remote call made by this provider (`remoteCalls` counts them).  The embedding
is the sequential (single logical thread) semantics: one `analyze` call runs
its queued task to completion before control returns, which is the JavaScript
behaviour when no other request is interleaved. -/

/-- The `\x7blanguage, rules\x7d` option object passed to `analyze`. -/
structure AnalyzeOptions where
  language : String
  rules : List String
deriving DecidableEq, Repr

/-- The option object as the ordered key-value record that `JSON.stringify`
sees: `language` first, then `rules`, matching the object literal in
`ClaudeProvider.analyze` callers. -/
def analyzeOptionsPairs (o : AnalyzeOptions) : List (String × JValue) :=
  [("language", .str o.language), ("rules", .arr o.rules)]

/-- State of a `ClaudeProvider` instance, plus the external oracles it
interacts with. -/
structure ClaudeProviderM (α : Type) where
  enableCache : Bool
  cache : ResponseCache α
  rateLimiter : RateLimiter
  requestQueue : RequestQueue
  hash : String → Except JsError String
  remote : Nat → Except JsError α
  remoteCalls : Nat
  rand : Nat → ℚ

/-- The retry options hard-coded in `ClaudeProvider.analyzeWithRetry`
(merged with the defaults, so `retryableErrors` is the default list). -/
def providerRetryOptions : RetryOptions :=
  mergeRetryOptions
    { maxRetries := some 3, baseDelay := some 1000, maxDelay := some 30000,
      backoffMultiplier := some 2, retryableErrors := none }

/-- One attempt of the retried action in `analyzeWithRetry`: call the remote
backend (`callClaudeAPI`), and on success write through to the cache when
caching is enabled.  Returns the response together with the cache state after
the write. -/
def taskAttempt {α : Type} (p : ClaudeProviderM α) (now : ℚ) (content : String)
    (o : AnalyzeOptions) (attempt : Nat) : Except JsError (α × ResponseCache α) :=
  match p.remote (p.remoteCalls + attempt) with
  | .error e => .error e
  | .ok result =>
    if p.enableCache then
      match p.cache.set p.hash now content result (some (analyzeOptionsPairs o)) none with
      | .error e => .error e
      | .ok c => .ok (result, c)
    else .ok (result, p.cache)

/-- The queued task of `ClaudeProvider.analyze` on a cache miss: enqueue on
the request queue, await a rate-limiter token, run the remote call under
`withRetry`, settle the queue entry, and thread all state.  The wall clock is
held at `now` for the duration of the task (the claims settled against this
model do not depend on the in-task clock). -/
def runTask {α : Type} (p : ClaudeProviderM α) (now : ℚ) (content : String)
    (o : AnalyzeOptions) : Except JsError α × ClaudeProviderM α :=
  let id := p.requestQueue.nextId
  let q₁ := p.requestQueue.enqueue
  let w := p.rateLimiter.waitForToken now 1
  let r := withRetryGo (taskAttempt p now content o) providerRetryOptions p.rand 0
  let q₂ := q₁.complete id
  match r.1 with
  | .ok rc =>
    (.ok rc.1,
      { p with cache := rc.2, rateLimiter := w.2, requestQueue := q₂,
               remoteCalls := p.remoteCalls + r.2.1 })
  | .error e =>
    (.error e,
      { p with rateLimiter := w.2, requestQueue := q₂,
               remoteCalls := p.remoteCalls + r.2.1 })

/-- `ClaudeProvider.analyze`: when caching is enabled, consult the cache
first (outside the queue and the limiter); on a hit return the cached value
at once, on a miss (or with caching disabled) run the queued task.  A fault
thrown by the cache layer propagates — `analyze` has no try/catch around the
cache check. -/
def ClaudeProviderM.analyze {α : Type} (p : ClaudeProviderM α) (now : ℚ)
    (content : String) (o : AnalyzeOptions) : Except JsError α × ClaudeProviderM α :=
  if p.enableCache then
    match p.cache.get p.hash now content (some (analyzeOptionsPairs o)) with
    | .error e => (.error e, p)
    | .ok (some v, c) => (.ok v, { p with cache := c })
    | .ok (none, c) => runTask { p with cache := c } now content o
  else runTask p now content o

/-- The individually settled outcomes of `analyze` over a list of batch
items, in item order (every item's promise runs; this is the information
`Promise.allSettled` would deliver). -/
def analyzeSeq {α : Type} (p : ClaudeProviderM α) (now : ℚ) :
    List (String × AnalyzeOptions) → List (Except JsError α) × ClaudeProviderM α
  | [] => ([], p)
  | item :: rest =>
    let r := ClaudeProviderM.analyze p now item.1 item.2
    let rs := analyzeSeq r.2 now rest
    (r.1 :: rs.1, rs.2)

/-- `Promise.all` over already-settled outcomes: fulfilled with the list of
values when every promise fulfilled, rejected with the error of a failed
promise otherwise (the first in list order, standing for the first in time in
the sequential semantics). -/
def promiseAll {α : Type} : List (Except JsError α) → Except JsError (List α)
  | [] => .ok []
  | .error e :: _ => .error e
  | .ok a :: rest =>
    match promiseAll rest with
    | .error e => .error e
    | .ok vs => .ok (a :: vs)

/-- `ClaudeProvider.analyzeBatch`: fan out `analyze` over the items and
aggregate with `Promise.all`. -/
def ClaudeProviderM.analyzeBatch {α : Type} (p : ClaudeProviderM α) (now : ℚ)
    (items : List (String × AnalyzeOptions)) :
    Except JsError (List α) × ClaudeProviderM α :=
  let rs := analyzeSeq p now items
  (promiseAll rs.1, rs.2)

/-! ## Concrete instances used by the closed (witness / counterexample)
theorems below. -/

/-- Option object `\x7blanguage: "javascript", rules: ["security"]\x7d` with
the keys in declaration order. -/
def pairsA : List (String × JValue) :=
  [("language", .str "javascript"), ("rules", .arr ["security"])]

/-- The same key-value record as `pairsA` with the two keys inserted in the
opposite order. -/
def pairsB : List (String × JValue) :=
  [("rules", .arr ["security"]), ("language", .str "javascript")]

/-- An empty response cache over `Nat` payloads with the default 1h TTL. -/
def emptyCacheNat : ResponseCache Nat :=
  { cache := [], defaultTTL := 3600000 }

/-- The cache state after `set("const x=1;", 42, pairsA)` at time 0 under the
ideal hash. -/
def cacheAfterSetA : ResponseCache Nat :=
  { cache := [("const x=1;" ++ jsonStringifyObj pairsA,
               { value := 42, timestamp := 0, ttl := 3600000 })],
    defaultTTL := 3600000 }

/-- An error raised by the cache layer (e.g. a hashing failure). -/
def cacheFaultErr : JsError :=
  { message := "hash failure", etype := "", code := "", status := none, statusCode := none }

/-- A transient error matching the `timeout` retryable signature. -/
def timeoutErr : JsError :=
  { message := "timeout", etype := "", code := "", status := none, statusCode := none }

/-- A non-retryable error (authentication failure: no matching signature, no
retryable status code). -/
def authErr : JsError :=
  { message := "invalid x-api-key", etype := "authxfailure", code := "",
    status := none, statusCode := none }

/-- A provider whose hasher always faults and whose remote backend always
succeeds, used to exhibit cache-fault propagation. -/
def pFault : ClaudeProviderM Nat :=
  { enableCache := true
    cache := emptyCacheNat
    rateLimiter := RateLimiter.mk0 50 5 0
    requestQueue := RequestQueue.mk0 5
    hash := fun _ => .error cacheFaultErr
    remote := fun _ => .ok 7
    remoteCalls := 0
    rand := fun _ => 0 }

/-- A provider (caching disabled, ideal hash) whose remote backend succeeds
on its first call with `42` and fails every later call with the non-retryable
`authErr`. -/
def pBatch : ClaudeProviderM Nat :=
  { enableCache := false
    cache := emptyCacheNat
    rateLimiter := RateLimiter.mk0 50 5 0
    requestQueue := RequestQueue.mk0 5
    hash := okHash
    remote := fun i => if i = 0 then .ok 42 else .error authErr
    remoteCalls := 0
    rand := fun _ => 0 }

/-- A provider (caching disabled, ideal hash) whose remote backend always
succeeds with `42`. -/
def pAllOk : ClaudeProviderM Nat :=
  { enableCache := false
    cache := emptyCacheNat
    rateLimiter := RateLimiter.mk0 50 5 0
    requestQueue := RequestQueue.mk0 5
    hash := okHash
    remote := fun _ => .ok 42
    remoteCalls := 0
    rand := fun _ => 0 }

/-- A provider with caching enabled and a warm cache entry for
`("const x=1;", pairsA)`, used for the cache-hit frame theorem's witness. -/
def pWarm : ClaudeProviderM Nat :=
  { enableCache := true
    cache := cacheAfterSetA
    rateLimiter := RateLimiter.mk0 50 5 0
    requestQueue := RequestQueue.mk0 5
    hash := okHash
    remote := fun _ => .ok 7
    remoteCalls := 0
    rand := fun _ => 0 }

/-- Retry options driving the delay counterexample: the exponential delay is
capped at `maxDelay = 1000` from the first attempt on. -/
def cappedRetryOptions : RetryOptions :=
  { maxRetries := 2, baseDelay := 1000, maxDelay := 1000, backoffMultiplier := 2,
    retryableErrors := DEFAULT_RETRY_OPTIONS.retryableErrors }

/-- Jitter draws for the delay counterexample: 0.9 before the first retry,
0 afterwards. -/
def cRand : Nat → ℚ := fun i => if i = 0 then 9 / 10 else 0

/-- Two batch items over the same language/rules. -/
def batchItems : List (String × AnalyzeOptions) :=
  [("a", { language := "javascript", rules := ["security"] }),
   ("b", { language := "javascript", rules := ["security"] })]

/-- A concrete timed trace of rate-limiter operations. -/
def wOps : List (ℚ × LimiterOp) :=
  [(0, .tryConsume 1), (1000, .waitForToken 100), (5000, .getTokens), (6000, .reset)]

/-- Explicit retry options used by the retry-exhaustion witness. -/
def wRetryArg : RetryOptionsArg :=
  { maxRetries := some 2, baseDelay := some 5, maxDelay := some 10,
    backoffMultiplier := some 2, retryableErrors := none }

/-- All task ids a queue state knows about: pending, in flight, settled. -/
def qids (q : RequestQueue) : List Nat :=
  q.queue ++ q.processing ++ q.settled

/-- Well-formedness of a queue state: no id occurs twice across
pending/in-flight/settled, and every id was issued by `enqueue`
(is below `nextId`). -/
def QWF (q : RequestQueue) : Prop :=
  (qids q).Nodup ∧ ∀ i ∈ qids q, i < q.nextId

/-- An id is dead in a queue state: it was issued in the past but no longer
occurs anywhere — such a task can never start and its promise can never
settle. -/
def deadId (q : RequestQueue) (id : Nat) : Prop :=
  id < q.nextId ∧ id ∉ q.queue ∧ id ∉ q.processing ∧ id ∉ q.settled

/-! # Theorems -/

/-- The `timeout` signature is classified retryable under the default list
(stated over the literal list, which is definitionally
`DEFAULT_RETRY_OPTIONS.retryableErrors`). -/
theorem timeoutErr_retryable :
    isRetryableError (some timeoutErr)
      ["rate_limit_error", "timeout", "server_error", "network_error",
       "ECONNRESET", "ETIMEDOUT", "ENOTFOUND"] = true := by
  decide

/-- The authentication error matches no retryable signature and no retryable
status code. -/
theorem authErr_not_retryable :
    isRetryableError (some authErr)
      ["rate_limit_error", "timeout", "server_error", "network_error",
       "ECONNRESET", "ETIMEDOUT", "ENOTFOUND"] = false := by
  decide

/-- `Map.set` followed by a lookup of the same key yields the stored value. -/
theorem mapSet_lookup_self {α : Type} (m : List (String × α)) (k : String) (v : α) :
    (mapSet m k v).lookup k = some v := by
  induction m with
  | nil => simp [mapSet, List.lookup]
  | cons p rest ih =>
    obtain ⟨k₁, v₁⟩ := p
    by_cases h : k₁ = k
    · subst h; simp [mapSet, List.lookup]
    · have hbeq : (k == k₁) = false := beq_eq_false_iff_ne.mpr fun e => h e.symm
      simp only [mapSet, if_neg h, List.lookup, hbeq]
      exact ih

/-- `Promise.all` over promises that all fulfilled yields the value list. -/
theorem promiseAll_map_ok {α : Type} (vs : List α) :
    promiseAll (vs.map Except.ok) = .ok vs := by
  induction vs with
  | nil => rfl
  | cons v rest ih => simp [promiseAll, ih]

/-- Reading an unexpired entry returns its value and leaves the cache
unchanged. -/
theorem ResponseCache.get_hit {T : Type} (c : ResponseCache T)
    (hash : String → Except JsError String) (now : ℚ) (content : String)
    (options : Option (List (String × JValue))) (key : String) (entry : CacheEntry T)
    (hkey : ResponseCache.generateKey hash content options = .ok key)
    (hfind : c.cache.lookup key = some entry)
    (hfresh : now - entry.timestamp ≤ entry.ttl) :
    c.get hash now content options = .ok (some entry.value, c) := by
  unfold ResponseCache.get
  rw [hkey]
  simp only [hfind]
  rw [if_neg (not_lt.mpr hfresh)]

/-- `analyzeSeq` produces one settled outcome per batch item, in item
order. -/
theorem analyzeSeq_length {α : Type} (p : ClaudeProviderM α) (now : ℚ)
    (items : List (String × AnalyzeOptions)) :
    (analyzeSeq p now items).1.length = items.length := by
  induction items generalizing p with
  | nil => rfl
  | cons item rest ih => simp [analyzeSeq, ih]

/-- C1 (counterexample): the cache fingerprint is sensitive to the insertion
order of option keys.  `pairsA` and `pairsB` are equal as key-value maps (a
permutation of each other), yet after `set(c, 42, pairsA)` the call
`get(c, pairsB)` misses (returns `none` rather than the stored `42`), because
`generateKey` feeds the order-dependent `JSON.stringify(options)` into the
hash with no canonicalization. -/
theorem cache_key_order_counterexample :
    pairsA.Perm pairsB ∧
    ResponseCache.set emptyCacheNat okHash 0 "const x=1;" 42 (some pairsA) none
      = .ok cacheAfterSetA ∧
    cacheAfterSetA.get okHash 0 "const x=1;" (some pairsB) = .ok (none, cacheAfterSetA) :=
  ⟨by decide, rfl, rfl⟩

/-- C1 (amended): after `set(c, v, o)`, a `get(c, o')` within the TTL returns
exactly `v` for any options object `o'` whose serialization yields the same
fingerprint as `o` — in particular any `o'` with the same keys, values and
insertion order.  (The fingerprint is *not* independent of key order.) -/
theorem cache_set_get_same_key {T : Type} (c c₁ : ResponseCache T) (now t : ℚ)
    (content : String) (v : T) (opts opts₂ : Option (List (String × JValue)))
    (ttl : Option ℚ)
    (hkeys : ResponseCache.generateKey okHash content opts₂
      = ResponseCache.generateKey okHash content opts)
    (hset : c.set okHash now content v opts ttl = .ok c₁)
    (hfresh : t - now ≤ ttlOrDefault ttl c.defaultTTL) :
    c₁.get okHash t content opts₂ = .ok (some v, c₁) := by
  obtain ⟨k, hk⟩ : ∃ k, ResponseCache.generateKey okHash content opts = .ok k := by
    cases opts <;> exact ⟨_, rfl⟩
  have h₂ : Except.ok { c with cache := mapSet c.cache k ⟨v, now, ttlOrDefault ttl c.defaultTTL⟩ }
      = (Except.ok c₁ : Except JsError (ResponseCache T)) := by
    rw [← hset, ResponseCache.set, hk]
  injection h₂ with h₃
  rw [← h₃, ResponseCache.get, hkeys, hk]
  simp only [mapSet_lookup_self]
  rw [if_neg (not_lt.mpr hfresh)]

/-- C1 (witness for the amended claim): a concrete set/get round trip with the
same option object, read 10ms after the write against the 1h default TTL. -/
theorem cache_set_get_same_key_witness :
    cacheAfterSetA.get okHash 10 "const x=1;" (some pairsA) = .ok (some 42, cacheAfterSetA) :=
  cache_set_get_same_key emptyCacheNat cacheAfterSetA 0 10 "const x=1;" 42 (some pairsA)
    (some pairsA) none rfl rfl (by norm_num [ttlOrDefault, emptyCacheNat])

/-- C3 (counterexample): a fault raised inside the cache layer IS propagated
to the caller of `analyze`.  With a hasher that throws, `analyze` rejects with
the cache-layer error and leaves the provider untouched: in particular
`remoteCalls` stays 0, so the underlying remote call did NOT proceed —
`ClaudeProvider.analyze` wraps no try/catch around `this.cache.get`. -/
theorem analyze_cacheFault_counterexample :
    pFault.analyze 0 "const x=1;" { language := "javascript", rules := ["security"] }
      = (.error cacheFaultErr, pFault) ∧
    pFault.remoteCalls = 0 :=
  ⟨rfl, rfl⟩

/-- C3 (amended): when caching is enabled and the cache layer faults during
the cache check, `analyze` propagates that fault to its caller unchanged and
nothing proceeds: no task is enqueued, no token is consumed, and the remote
backend is not called (the provider state is returned as-is). -/
theorem analyze_cacheFault_propagates {α : Type} (p : ClaudeProviderM α) (now : ℚ)
    (content : String) (o : AnalyzeOptions) (e : JsError)
    (hec : p.enableCache = true)
    (hget : p.cache.get p.hash now content (some (analyzeOptionsPairs o)) = .error e) :
    p.analyze now content o = (.error e, p) := by
  unfold ClaudeProviderM.analyze
  rw [if_pos hec, hget]

/-- C3 (witness for the amended claim): the propagation theorem applied to the
provider with the faulting hasher. -/
theorem analyze_cacheFault_propagates_witness :
    pFault.analyze 5 "x" { language := "typescript", rules := [] }
      = (.error cacheFaultErr, pFault) :=
  analyze_cacheFault_propagates pFault 5 "x" { language := "typescript", rules := [] }
    cacheFaultErr rfl rfl

/-- C5 (confirmed): on a warm, unexpired cache entry, `analyze` returns the
cached value immediately and the provider state is returned unchanged: the
request queue sees no enqueue, the rate limiter loses no token, and the
remote-call counter does not move. -/
theorem analyze_cache_hit_frame {α : Type} (p : ClaudeProviderM α) (now : ℚ)
    (content : String) (o : AnalyzeOptions) (key : String) (entry : CacheEntry α)
    (hec : p.enableCache = true)
    (hkey : p.hash (content ++ jsonStringifyObj (analyzeOptionsPairs o)) = .ok key)
    (hfind : p.cache.cache.lookup key = some entry)
    (hfresh : now - entry.timestamp ≤ entry.ttl) :
    p.analyze now content o = (.ok entry.value, p) := by
  unfold ClaudeProviderM.analyze
  have hget : p.cache.get p.hash now content (some (analyzeOptionsPairs o))
      = .ok (some entry.value, p.cache) :=
    ResponseCache.get_hit p.cache p.hash now content (some (analyzeOptionsPairs o)) key entry
      hkey hfind hfresh
  rw [if_pos hec, hget]

/-- C5 (witness): a concrete provider with a warm entry for
`("const x=1;", \x7blanguage: "javascript", rules: ["security"]\x7d)` serves the
cached `42` and is returned unchanged. -/
theorem analyze_cache_hit_frame_witness :
    pWarm.analyze 0 "const x=1;" { language := "javascript", rules := ["security"] }
      = (.ok 42, pWarm) :=
  analyze_cache_hit_frame pWarm 0 "const x=1;"
    { language := "javascript", rules := ["security"] }
    ("const x=1;" ++ jsonStringifyObj pairsA)
    { value := 42, timestamp := 0, ttl := 3600000 } rfl rfl rfl (by norm_num)

set_option maxRecDepth 8192 in
/-- C2 (counterexample): `analyzeBatch` aggregates with `Promise.all`, so one
item's failure does prevent the caller from obtaining sibling results.  On
`pBatch`, item "a" succeeds (its own settled outcome is `.ok 42`) but item
"b" fails with the non-retryable `authErr`; `analyzeBatch` rejects with that
error and delivers no sibling result to the caller. -/
theorem analyzeBatch_promiseAll_counterexample :
    (analyzeSeq pBatch 0 batchItems).1 = [.ok 42, .error authErr] ∧
    (pBatch.analyzeBatch 0 batchItems).1 = .error authErr := by
  constructor
  · simp [analyzeSeq, ClaudeProviderM.analyze, runTask, withRetryGo, taskAttempt, pBatch,
      batchItems, authErr_not_retryable, providerRetryOptions, mergeRetryOptions,
      DEFAULT_RETRY_OPTIONS]
  · simp [ClaudeProviderM.analyzeBatch, analyzeSeq, ClaudeProviderM.analyze, runTask,
      withRetryGo, taskAttempt, pBatch, batchItems, promiseAll, authErr_not_retryable,
      providerRetryOptions, mergeRetryOptions, DEFAULT_RETRY_OPTIONS]

/-- C2 (amended): when every item's own analysis succeeds, `analyzeBatch`
fulfills with the values in item order (results correspond positionally to
inputs, one per item); when any item fails, the batch rejects with that
item's error and the caller obtains no sibling results. -/
theorem analyzeBatch_allOk_positional {α : Type} (p : ClaudeProviderM α) (now : ℚ)
    (items : List (String × AnalyzeOptions)) (vs : List α)
    (h : (analyzeSeq p now items).1 = vs.map Except.ok) :
    p.analyzeBatch now items = (.ok vs, (analyzeSeq p now items).2) ∧
    vs.length = items.length := by
  constructor
  · show (promiseAll (analyzeSeq p now items).1, (analyzeSeq p now items).2)
      = (.ok vs, (analyzeSeq p now items).2)
    rw [h, promiseAll_map_ok]
  · have hlen := analyzeSeq_length p now items
    rw [h] at hlen
    simpa using hlen

set_option maxRecDepth 8192 in
/-- C2 (witness for the amended claim): a two-item batch against an
always-succeeding backend fulfills with both values in order. -/
theorem analyzeBatch_allOk_positional_witness :
    pAllOk.analyzeBatch 0 batchItems = (.ok [42, 42], (analyzeSeq pAllOk 0 batchItems).2) ∧
    ([42, 42] : List Nat).length = batchItems.length :=
  analyzeBatch_allOk_positional pAllOk 0 batchItems [42, 42] (by
    simp [analyzeSeq, ClaudeProviderM.analyze, runTask, withRetryGo, taskAttempt, pAllOk,
      batchItems])

/-- C4 (counterexample): with `baseDelay = 1000`, `maxDelay = 1000`,
`backoffMultiplier = 2` and jitter draws 0.9 then 0, an always-failing
retryable run sleeps 1090ms and then 1000ms: the first slept delay exceeds
`maxDelay` (jitter is added after the cap), and the successive delays are not
strictly increasing (1090 is followed by 1000). -/
theorem retryDelay_claim_counterexample :
    (withRetryGo (fun _ => (.error timeoutErr : Except JsError Nat)) cappedRetryOptions cRand
        0).2.2 = [1090, 1000] ∧
    cappedRetryOptions.maxDelay = 1000 ∧
    ¬ ((1090 : ℚ) ≤ cappedRetryOptions.maxDelay) ∧
    ¬ ((1090 : ℚ) < (1000 : ℚ)) := by
  refine ⟨?_, rfl, by norm_num [cappedRetryOptions], by norm_num⟩
  simp [withRetryGo, cappedRetryOptions, DEFAULT_RETRY_OPTIONS, timeoutErr_retryable, cRand]
  norm_num [calculateDelay]

/-- C4 (amended): for every attempt `i` and every jitter draw `r ∈ [0, 1]`,
the computed delay equals `min(baseDelay * backoffMultiplier^i, maxDelay)`
plus up to 10% strictly additive jitter: it is never below that capped
exponential value, at most 1.1 times it, and hence bounded by
`1.1 * maxDelay` (not by `maxDelay` itself). -/
theorem calculateDelay_bounds (attempt : Nat) (baseDelay maxDelay backoffMultiplier r : ℚ)
    (hb : 0 ≤ baseDelay) (hm : 0 ≤ maxDelay) (hmult : 0 ≤ backoffMultiplier)
    (hr0 : 0 ≤ r) (hr1 : r ≤ 1) :
    min (baseDelay * backoffMultiplier ^ attempt) maxDelay
      ≤ calculateDelay attempt baseDelay maxDelay backoffMultiplier r ∧
    calculateDelay attempt baseDelay maxDelay backoffMultiplier r
      ≤ (11 / 10) * min (baseDelay * backoffMultiplier ^ attempt) maxDelay ∧
    calculateDelay attempt baseDelay maxDelay backoffMultiplier r ≤ (11 / 10) * maxDelay := by
  have he : (0 : ℚ) ≤ baseDelay * backoffMultiplier ^ attempt :=
    mul_nonneg hb (pow_nonneg hmult attempt)
  set d : ℚ := min (baseDelay * backoffMultiplier ^ attempt) maxDelay with hd
  have hd0 : (0 : ℚ) ≤ d := le_min he hm
  have hdm : d ≤ maxDelay := min_le_right _ _
  have hj0 : (0 : ℚ) ≤ d * (1 / 10) * r :=
    mul_nonneg (mul_nonneg hd0 (by norm_num)) hr0
  have hj1 : d * (1 / 10) * r ≤ d * (1 / 10) := by
    have h₂ := mul_le_mul_of_nonneg_left hr1
      (mul_nonneg hd0 (by norm_num) : (0 : ℚ) ≤ d * (1 / 10))
    simpa using h₂
  have hcalc : calculateDelay attempt baseDelay maxDelay backoffMultiplier r
      = d + d * (1 / 10) * r := rfl
  rw [hcalc]
  refine ⟨by linarith, by linarith, by linarith⟩

/-- C4 (witness for the amended claim): the bounds at attempt 0 with
`baseDelay = maxDelay = 1000`, multiplier 2, jitter draw 0.9. -/
theorem calculateDelay_bounds_witness :
    min ((1000 : ℚ) * 2 ^ 0) 1000 ≤ calculateDelay 0 1000 1000 2 (9 / 10) ∧
    calculateDelay 0 1000 1000 2 (9 / 10) ≤ (11 / 10) * min ((1000 : ℚ) * 2 ^ 0) 1000 ∧
    calculateDelay 0 1000 1000 2 (9 / 10) ≤ (11 / 10) * 1000 :=
  calculateDelay_bounds 0 1000 1000 2 (9 / 10) (by norm_num) (by norm_num) (by norm_num)
    (by norm_num) (by norm_num)

/-- On an action that fails on every invocation with a retryable error, the
retry loop started at attempt `attempt` (with `j` retries remaining) performs
`j + 1` invocations and ends with the error of the final attempt. -/
theorem withRetryGo_allFail {α : Type} (es : Nat → JsError) (opts : RetryOptions)
    (rand : Nat → ℚ)
    (hre : ∀ i, isRetryableError (some (es i)) opts.retryableErrors = true) :
    ∀ j attempt, attempt + j = opts.maxRetries →
      (withRetryGo (fun i => (.error (es i) : Except JsError α)) opts rand attempt).1
        = .error (es opts.maxRetries) ∧
      (withRetryGo (fun i => (.error (es i) : Except JsError α)) opts rand attempt).2.1
        = j + 1 := by
  intro j
  induction j with
  | zero =>
    intro attempt h
    have hle : opts.maxRetries ≤ attempt := by omega
    have hattempt : attempt = opts.maxRetries := by omega
    rw [withRetryGo.eq_def]
    simp only [dif_pos hle]
    exact ⟨by rw [hattempt], by simp⟩
  | succ n ih =>
    intro attempt h
    have hlt : ¬ opts.maxRetries ≤ attempt := by omega
    obtain ⟨ih1, ih2⟩ := ih (attempt + 1) (by omega)
    constructor
    · rw [withRetryGo.eq_def]
      simp only [dif_neg hlt, hre attempt, if_true]
      exact ih1
    · rw [withRetryGo.eq_def]
      simp only [dif_neg hlt, hre attempt, if_true]
      rw [ih2]

/-- C6 (confirmed): an action that raises a retryable error on every
invocation is attempted exactly `maxRetries + 1` times by `withRetry`, and
the error of the final attempt is propagated. -/
theorem withRetry_exhaustion {α : Type} (es : Nat → JsError) (options : RetryOptionsArg)
    (rand : Nat → ℚ)
    (hre : ∀ i, isRetryableError (some (es i)) (mergeRetryOptions options).retryableErrors
      = true) :
    (withRetry (fun i => (.error (es i) : Except JsError α)) options rand).1
      = .error (es (mergeRetryOptions options).maxRetries) ∧
    (withRetry (fun i => (.error (es i) : Except JsError α)) options rand).2.1
      = (mergeRetryOptions options).maxRetries + 1 := by
  have h := withRetryGo_allFail (α := α) es (mergeRetryOptions options) rand hre
    (mergeRetryOptions options).maxRetries 0 (by omega)
  exact ⟨h.1, h.2⟩

/-- C6 (witness): with `maxRetries = 2` and an always-timeout action, exactly
3 invocations happen and the timeout error comes back. -/
theorem withRetry_exhaustion_witness :
    (withRetry (fun _ => (.error timeoutErr : Except JsError Unit)) wRetryArg cRand).1
      = .error timeoutErr ∧
    (withRetry (fun _ => (.error timeoutErr : Except JsError Unit)) wRetryArg cRand).2.1
      = 3 :=
  withRetry_exhaustion (fun _ => timeoutErr) wRetryArg cRand (fun _ => timeoutErr_retryable)

/-- `refill` keeps the token count within `[0, maxTokens]` whenever the clock
has not moved backwards and the refill rate is nonnegative. -/
theorem refill_inv (rl : RateLimiter) (t : ℚ)
    (h0 : 0 ≤ rl.tokens) (h1 : rl.tokens ≤ rl.maxTokens)
    (hr : 0 ≤ rl.refillRate) (ht : rl.lastRefill ≤ t) :
    0 ≤ (rl.refill t).tokens ∧ (rl.refill t).tokens ≤ rl.maxTokens := by
  have hadd : (0 : ℚ) ≤ (t - rl.lastRefill) / 1000 * rl.refillRate :=
    mul_nonneg (div_nonneg (by linarith) (by norm_num)) hr
  constructor
  · show (0 : ℚ) ≤ min rl.maxTokens (rl.tokens + (t - rl.lastRefill) / 1000 * rl.refillRate)
    exact le_min (by linarith) (by linarith)
  · show min rl.maxTokens (rl.tokens + (t - rl.lastRefill) / 1000 * rl.refillRate)
      ≤ rl.maxTokens
    exact min_le_left _ _

/-- Every public rate-limiter operation preserves `0 ≤ tokens ≤ maxTokens`,
leaves capacity and rate unchanged, and moves `lastRefill` to the call
time. -/
theorem applyLimiterOp_inv (rl : RateLimiter) (t : ℚ) (op : LimiterOp)
    (h0 : 0 ≤ rl.tokens) (h1 : rl.tokens ≤ rl.maxTokens)
    (hr : 0 ≤ rl.refillRate) (ht : rl.lastRefill ≤ t) (hop : limiterOpOk op = true) :
    0 ≤ (applyLimiterOp rl t op).tokens ∧
    (applyLimiterOp rl t op).tokens ≤ (applyLimiterOp rl t op).maxTokens ∧
    (applyLimiterOp rl t op).maxTokens = rl.maxTokens ∧
    (applyLimiterOp rl t op).refillRate = rl.refillRate ∧
    (applyLimiterOp rl t op).lastRefill = t := by
  obtain ⟨g0, g1⟩ := refill_inv rl t h0 h1 hr ht
  cases op with
  | tryConsume n =>
    have hn : (0 : ℚ) ≤ n := by simpa [limiterOpOk] using hop
    by_cases hc : n ≤ (rl.refill t).tokens
    · simp only [applyLimiterOp, RateLimiter.tryConsume, if_pos hc]
      exact ⟨by linarith, by show _ - _ ≤ rl.maxTokens; linarith, rfl, rfl, rfl⟩
    · simp only [applyLimiterOp, RateLimiter.tryConsume, if_neg hc]
      exact ⟨g0, g1, rfl, rfl, rfl⟩
  | waitForToken n =>
    have hn : (0 : ℚ) ≤ n := by simpa [limiterOpOk] using hop
    by_cases hc : n ≤ (rl.refill t).tokens
    · simp only [applyLimiterOp, RateLimiter.waitForToken, if_pos hc]
      exact ⟨by linarith, by show _ - _ ≤ rl.maxTokens; linarith, rfl, rfl, rfl⟩
    · simp only [applyLimiterOp, RateLimiter.waitForToken, if_neg hc]
      exact ⟨le_refl 0, by show (0 : ℚ) ≤ rl.maxTokens; linarith, rfl, rfl, rfl⟩
  | getTokens =>
    exact ⟨g0, g1, rfl, rfl, rfl⟩
  | reset =>
    exact ⟨by show (0 : ℚ) ≤ rl.maxTokens; linarith, le_refl _, rfl, rfl, rfl⟩

/-- C7 (confirmed): along every timed sequence of public rate-limiter
operations (`tryConsume`/`waitForToken`/`getTokens`/`reset`) with a
monotone clock and nonnegative requested amounts, the token count satisfies
`0 ≤ tokens ≤ maxTokens` at every observation point (every prefix of the
trace is itself such a trace). -/
theorem rateLimiter_token_bounds (ops : List (ℚ × LimiterOp)) :
    ∀ rl : RateLimiter, 0 ≤ rl.tokens → rl.tokens ≤ rl.maxTokens → 0 ≤ rl.refillRate →
      limiterTraceOk rl.lastRefill ops = true →
      0 ≤ (runLimiter rl ops).tokens ∧
      (runLimiter rl ops).tokens ≤ (runLimiter rl ops).maxTokens := by
  induction ops with
  | nil =>
    intro rl h0 h1 _hr _hops
    exact ⟨h0, h1⟩
  | cons p rest ih =>
    obtain ⟨t, op⟩ := p
    intro rl h0 h1 hr hops
    simp only [limiterTraceOk, Bool.and_eq_true, decide_eq_true_eq] at hops
    obtain ⟨⟨hts, hopok⟩, hrest⟩ := hops
    obtain ⟨g0, g1, gmax, grate, glast⟩ := applyLimiterOp_inv rl t op h0 h1 hr hts hopok
    exact ih (applyLimiterOp rl t op) g0 g1 (by rw [grate]; exact hr)
      (by rw [glast]; exact hrest)

/-- C7 (witness): a concrete four-operation trace on a freshly constructed
limiter (capacity 50, rate 5). -/
theorem rateLimiter_token_bounds_witness :
    0 ≤ (runLimiter (RateLimiter.mk0 50 5 0) wOps).tokens ∧
    (runLimiter (RateLimiter.mk0 50 5 0) wOps).tokens
      ≤ (runLimiter (RateLimiter.mk0 50 5 0) wOps).maxTokens :=
  rateLimiter_token_bounds wOps (RateLimiter.mk0 50 5 0) (by norm_num [RateLimiter.mk0])
    (by norm_num [RateLimiter.mk0]) (by norm_num [RateLimiter.mk0])
    (by norm_num [limiterTraceOk, limiterOpOk, wOps, RateLimiter.mk0])

/-- C9 (confirmed): when `waitForToken(n)` takes its suspension branch it
zeroes the token count without advancing `lastRefill` past the pre-wait
refill time `t₀`; a `getTokens()` at the completion time then re-credits the
whole wait duration, reporting exactly `n` minus the pre-wait token count
instead of 0 — the tokens waited for are granted again. -/
theorem waitForToken_double_grant (rl : RateLimiter) (t₀ n : ℚ)
    (hrate : 0 < rl.refillRate)
    (hshort : (rl.refill t₀).tokens < n)
    (hcap : n - (rl.refill t₀).tokens ≤ rl.maxTokens) :
    (rl.waitForToken t₀ n).2.tokens = 0 ∧
    (rl.waitForToken t₀ n).2.lastRefill = t₀ ∧
    ((rl.waitForToken t₀ n).2.getTokens (rl.waitForToken t₀ n).1).1
      = n - (rl.refill t₀).tokens := by
  have hnle : ¬ n ≤ (rl.refill t₀).tokens := not_le.mpr hshort
  have hne : rl.refillRate ≠ 0 := hrate.ne'
  have hw : rl.waitForToken t₀ n
      = (t₀ + (n - (rl.refill t₀).tokens) / rl.refillRate * 1000,
         { rl.refill t₀ with tokens := 0 }) := by
    unfold RateLimiter.waitForToken
    rw [if_neg hnle]
    rfl
  rw [hw]
  refine ⟨rfl, rfl, ?_⟩
  show min rl.maxTokens
      (0 + (t₀ + (n - (rl.refill t₀).tokens) / rl.refillRate * 1000 - t₀) / 1000
        * rl.refillRate)
    = n - (rl.refill t₀).tokens
  have harith : (t₀ + (n - (rl.refill t₀).tokens) / rl.refillRate * 1000 - t₀) / 1000
      * rl.refillRate = n - (rl.refill t₀).tokens := by
    field_simp
    ring
  rw [zero_add, harith]
  exact min_eq_right hcap

/-- C9 (witness): a fresh limiter (capacity 50, rate 5) asked for 60 tokens
at time 0 waits, is drained to 0, and an immediate `getTokens` reports the
10-token shortfall again. -/
theorem waitForToken_double_grant_witness :
    ((RateLimiter.mk0 50 5 0).waitForToken 0 60).2.tokens = 0 ∧
    ((RateLimiter.mk0 50 5 0).waitForToken 0 60).2.lastRefill = 0 ∧
    (((RateLimiter.mk0 50 5 0).waitForToken 0 60).2.getTokens
        ((RateLimiter.mk0 50 5 0).waitForToken 0 60).1).1
      = 60 - ((RateLimiter.mk0 50 5 0).refill 0).tokens :=
  waitForToken_double_grant (RateLimiter.mk0 50 5 0) 0 60
    (by norm_num [RateLimiter.mk0])
    (by norm_num [RateLimiter.mk0, RateLimiter.refill])
    (by norm_num [RateLimiter.mk0, RateLimiter.refill])

/-- One dispatch pass never pushes the in-flight count above the ceiling, and
never changes the ceiling. -/
theorem processQueue_ceiling (q : RequestQueue) (h : q.processing.length ≤ q.maxConcurrent) :
    (q.processQueue).processing.length ≤ (q.processQueue).maxConcurrent ∧
    (q.processQueue).maxConcurrent = q.maxConcurrent := by
  unfold RequestQueue.processQueue
  by_cases hfull : q.maxConcurrent ≤ q.processing.length
  · rw [if_pos hfull]
    exact ⟨h, rfl⟩
  · rw [if_neg hfull]
    cases hqq : q.queue with
    | nil => exact ⟨h, rfl⟩
    | cons hd tl =>
      refine ⟨?_, rfl⟩
      show (q.processing ++ [hd]).length ≤ q.maxConcurrent
      rw [List.length_append]
      simp only [List.length_cons, List.length_nil]
      omega

/-- Every queue event preserves the concurrency ceiling. -/
theorem qstep_ceiling (q : RequestQueue) (e : QEvent)
    (h : q.processing.length ≤ q.maxConcurrent) :
    (qstep q e).processing.length ≤ (qstep q e).maxConcurrent ∧
    (qstep q e).maxConcurrent = q.maxConcurrent := by
  cases e with
  | enqueue =>
    have h₂ := processQueue_ceiling
      { q with queue := q.queue ++ [q.nextId], nextId := q.nextId + 1 } h
    exact ⟨h₂.1, h₂.2⟩
  | complete j =>
    show ((q.complete j).processing.length ≤ (q.complete j).maxConcurrent) ∧
      (q.complete j).maxConcurrent = q.maxConcurrent
    unfold RequestQueue.complete
    by_cases hm : j ∈ q.processing
    · rw [if_pos hm]
      have hlen : (q.processing.erase j).length ≤ q.maxConcurrent :=
        le_trans (List.Sublist.length_le (List.erase_sublist j q.processing)) h
      have h₂ := processQueue_ceiling
        { q with processing := q.processing.erase j, settled := q.settled ++ [j] } hlen
      exact ⟨h₂.1, h₂.2⟩
    · rw [if_neg hm]
      exact ⟨h, rfl⟩
  | clear => exact ⟨h, rfl⟩

/-- The ceiling invariant holds after any sequence of queue events. -/
theorem runQueue_ceiling (events : List QEvent) :
    ∀ q : RequestQueue, q.processing.length ≤ q.maxConcurrent →
      (runQueue q events).processing.length ≤ (runQueue q events).maxConcurrent ∧
      (runQueue q events).maxConcurrent = q.maxConcurrent := by
  induction events with
  | nil =>
    intro q h
    exact ⟨h, rfl⟩
  | cons e rest ih =>
    intro q h
    have h₂ := qstep_ceiling q e h
    have h₃ := ih (qstep q e) h₂.1
    exact ⟨h₃.1, h₃.2.trans h₂.2⟩

/-- C8 (confirmed): starting from a fresh queue with `maxConcurrency = k`,
after any sequence of enqueue/completion/clear events — including bursts of
more than `k` enqueues whose tasks stay blocked until completion events
release them — the number of tasks simultaneously in flight never exceeds
`k`. -/
theorem requestQueue_concurrency_ceiling (k : Nat) (events : List QEvent) :
    ((runQueue (RequestQueue.mk0 k) events).processing).length ≤ k := by
  have h := runQueue_ceiling events (RequestQueue.mk0 k) (by simp [RequestQueue.mk0])
  exact le_trans h.1 (le_of_eq h.2)

/-- A dispatch pass cannot introduce a task id that was neither pending nor
in flight, and touches neither `settled` nor `nextId`. -/
theorem processQueue_not_mem (q : RequestQueue) (id : Nat)
    (hq : id ∉ q.queue) (hp : id ∉ q.processing) :
    id ∉ (q.processQueue).queue ∧ id ∉ (q.processQueue).processing ∧
    (q.processQueue).settled = q.settled ∧ (q.processQueue).nextId = q.nextId := by
  unfold RequestQueue.processQueue
  by_cases hfull : q.maxConcurrent ≤ q.processing.length
  · rw [if_pos hfull]
    exact ⟨hq, hp, rfl, rfl⟩
  · rw [if_neg hfull]
    cases hqq : q.queue with
    | nil => exact ⟨hq, hp, rfl, rfl⟩
    | cons hd tl =>
      rw [hqq] at hq
      refine ⟨?_, ?_, rfl, rfl⟩
      · show id ∉ tl
        exact fun hmem => hq (List.mem_cons_of_mem _ hmem)
      · show id ∉ q.processing ++ [hd]
        intro hmem
        rcases List.mem_append.mp hmem with h₁ | h₂
        · exact hp h₁
        · have hid : id = hd := by simpa using h₂
          exact hq (hid ▸ List.mem_cons_self _ _)

/-- A dead id (issued in the past, no longer present anywhere) stays dead
across every queue event: it can never start and can never settle. -/
theorem qstep_dead (q : RequestQueue) (e : QEvent) (id : Nat) (hd : deadId q id) :
    deadId (qstep q e) id := by
  obtain ⟨hlt, hq, hp, hs⟩ := hd
  cases e with
  | enqueue =>
    have hq₂ : id ∉ q.queue ++ [q.nextId] := by
      intro hmem
      rcases List.mem_append.mp hmem with h₁ | h₂
      · exact hq h₁
      · have : id = q.nextId := by simpa using h₂
        omega
    have h₃ := processQueue_not_mem
      { q with queue := q.queue ++ [q.nextId], nextId := q.nextId + 1 } id hq₂ hp
    show deadId (RequestQueue.processQueue
      { q with queue := q.queue ++ [q.nextId], nextId := q.nextId + 1 }) id
    refine ⟨?_, h₃.1, h₃.2.1, ?_⟩
    · rw [h₃.2.2.2]
      show id < q.nextId + 1
      omega
    · rw [h₃.2.2.1]
      exact hs
  | complete j =>
    show deadId (q.complete j) id
    unfold RequestQueue.complete
    by_cases hm : j ∈ q.processing
    · rw [if_pos hm]
      have hne : id ≠ j := fun h => hp (h ▸ hm)
      have hp₂ : id ∉ q.processing.erase j := fun h => hp (List.mem_of_mem_erase h)
      have hs₂ : id ∉ q.settled ++ [j] := by
        intro hmem
        rcases List.mem_append.mp hmem with h₁ | h₂
        · exact hs h₁
        · exact hne (by simpa using h₂)
      have h₃ := processQueue_not_mem
        { q with processing := q.processing.erase j, settled := q.settled ++ [j] } id hq hp₂
      refine ⟨?_, h₃.1, h₃.2.1, ?_⟩
      · rw [h₃.2.2.2]
        exact hlt
      · rw [h₃.2.2.1]
        exact hs₂
    · rw [if_neg hm]
      exact ⟨hlt, hq, hp, hs⟩
  | clear => exact ⟨hlt, List.not_mem_nil id, hp, hs⟩

/-- Dead ids stay dead along any sequence of queue events. -/
theorem runQueue_dead (events : List QEvent) :
    ∀ q id, deadId q id → deadId (runQueue q events) id := by
  induction events with
  | nil =>
    intro q id h
    exact h
  | cons e rest ih =>
    intro q id h
    exact ih (qstep q e) id (qstep_dead q e id h)

/-- A dispatch pass either does nothing or moves the head of the pending
queue to the end of the in-flight list. -/
theorem processQueue_cases (q : RequestQueue) :
    q.processQueue = q ∨
    ∃ hd tl, q.queue = hd :: tl ∧
      q.processQueue = { q with queue := tl, processing := q.processing ++ [hd] } := by
  unfold RequestQueue.processQueue
  by_cases hfull : q.maxConcurrent ≤ q.processing.length
  · rw [if_pos hfull]
    exact Or.inl rfl
  · rw [if_neg hfull]
    cases hqq : q.queue with
    | nil => exact Or.inl rfl
    | cons hd tl => exact Or.inr ⟨hd, tl, rfl, rfl⟩

/-- A dispatch pass permutes the known ids (it moves at most one id from
pending to in-flight) and keeps `nextId`. -/
theorem qids_processQueue (q : RequestQueue) :
    List.Perm (qids q.processQueue) (qids q) ∧ (q.processQueue).nextId = q.nextId := by
  rcases processQueue_cases q with h | ⟨hd, tl, hqq, h⟩
  · rw [h]
    exact ⟨List.Perm.refl _, rfl⟩
  · rw [h]
    refine ⟨?_, rfl⟩
    show List.Perm (tl ++ (q.processing ++ [hd]) ++ q.settled) (qids q)
    unfold qids
    rw [hqq]
    have h₁ : tl ++ (q.processing ++ [hd]) ++ q.settled
        = (tl ++ q.processing ++ [hd]) ++ q.settled := by
      simp [List.append_assoc]
    have h₂ : (hd :: tl) ++ q.processing ++ q.settled
        = (hd :: (tl ++ q.processing)) ++ q.settled := by
      simp
    rw [h₁, h₂]
    exact (List.perm_append_singleton hd (tl ++ q.processing)).append_right q.settled

/-- Completion of an in-flight task permutes the known ids (it moves one id
from in-flight to settled) and keeps `nextId`. -/
theorem qids_complete (q : RequestQueue) (j : Nat) :
    List.Perm (qids (q.complete j)) (qids q) ∧ (q.complete j).nextId = q.nextId := by
  unfold RequestQueue.complete
  by_cases hm : j ∈ q.processing
  · rw [if_pos hm]
    have h₂ := qids_processQueue
      { q with processing := q.processing.erase j, settled := q.settled ++ [j] }
    refine ⟨h₂.1.trans ?_, h₂.2⟩
    show List.Perm (q.queue ++ q.processing.erase j ++ (q.settled ++ [j]))
      (q.queue ++ q.processing ++ q.settled)
    have hL : q.queue ++ q.processing.erase j ++ (q.settled ++ [j])
        = (q.queue ++ q.processing.erase j ++ q.settled) ++ [j] := by
      simp [List.append_assoc]
    have hstep₁ : List.Perm ((q.queue ++ q.processing.erase j ++ q.settled) ++ [j])
        (j :: (q.queue ++ q.processing.erase j ++ q.settled)) :=
      List.perm_append_singleton _ _
    have hproc : List.Perm q.processing (j :: q.processing.erase j) :=
      List.perm_cons_erase hm
    have hstep₂ : List.Perm (q.queue ++ q.processing ++ q.settled)
        (q.queue ++ (j :: q.processing.erase j) ++ q.settled) :=
      ((hproc.append_left q.queue).append_right q.settled)
    have hmid : List.Perm (q.queue ++ (j :: q.processing.erase j) ++ q.settled)
        (j :: (q.queue ++ q.processing.erase j ++ q.settled)) := by
      have h₃ : q.queue ++ (j :: q.processing.erase j) ++ q.settled
          = q.queue ++ j :: (q.processing.erase j ++ q.settled) := by
        simp [List.append_assoc]
      have h₄ : List.Perm (q.queue ++ j :: (q.processing.erase j ++ q.settled))
          (j :: (q.queue ++ (q.processing.erase j ++ q.settled))) :=
        List.perm_middle
      rw [h₃]
      exact h₄.trans (by simp [List.append_assoc])
    rw [hL]
    exact hstep₁.trans (hstep₂.trans hmid).symm
  · rw [if_neg hm]
    exact ⟨List.Perm.refl _, rfl⟩

/-- Every queue event preserves well-formedness: ids never duplicate across
pending/in-flight/settled, and every known id is below `nextId`. -/
theorem qstep_QWF (q : RequestQueue) (e : QEvent) (h : QWF q) : QWF (qstep q e) := by
  obtain ⟨hnd, hbound⟩ := h
  cases e with
  | enqueue =>
    have hfresh : q.nextId ∉ qids q := fun hmem => absurd (hbound _ hmem) (by omega)
    have hperm : List.Perm
        (qids { q with queue := q.queue ++ [q.nextId], nextId := q.nextId + 1 })
        (q.nextId :: qids q) := by
      show List.Perm ((q.queue ++ [q.nextId]) ++ q.processing ++ q.settled)
        (q.nextId :: qids q)
      have h₁ : (q.queue ++ [q.nextId]) ++ q.processing ++ q.settled
          = q.queue ++ q.nextId :: (q.processing ++ q.settled) := by
        simp [List.append_assoc]
      rw [h₁]
      exact List.perm_middle.trans (by simp [qids, List.append_assoc])
    have hmodWF : QWF { q with queue := q.queue ++ [q.nextId], nextId := q.nextId + 1 } := by
      constructor
      · exact hperm.nodup_iff.mpr (List.nodup_cons.mpr ⟨hfresh, hnd⟩)
      · intro i hi
        have hi₂ : i ∈ q.nextId :: qids q := hperm.mem_iff.mp hi
        rcases List.mem_cons.mp hi₂ with h₁ | h₂
        · show i < q.nextId + 1
          omega
        · have := hbound i h₂
          show i < q.nextId + 1
          omega
    have h₂ := qids_processQueue { q with queue := q.queue ++ [q.nextId], nextId := q.nextId + 1 }
    constructor
    · exact h₂.1.nodup_iff.mpr hmodWF.1
    · intro i hi
      exact lt_of_lt_of_eq (hmodWF.2 i (h₂.1.mem_iff.mp hi)) h₂.2.symm
  | complete j =>
    have h₂ := qids_complete q j
    constructor
    · exact h₂.1.nodup_iff.mpr hnd
    · intro i hi
      exact lt_of_lt_of_eq (hbound i (h₂.1.mem_iff.mp hi)) h₂.2.symm
  | clear =>
    have hsub : List.Sublist (qids (q.clear)) (qids q) := by
      show List.Sublist (q.processing ++ q.settled) (q.queue ++ q.processing ++ q.settled)
      have h₁ : q.queue ++ q.processing ++ q.settled
          = q.queue ++ (q.processing ++ q.settled) := by
        simp [List.append_assoc]
      rw [h₁]
      exact List.sublist_append_right _ _
    constructor
    · exact hnd.sublist hsub
    · intro i hi
      exact hbound i (hsub.mem hi)

/-- Queue well-formedness holds along any event sequence. -/
theorem runQueue_QWF (events : List QEvent) :
    ∀ q : RequestQueue, QWF q → QWF (runQueue q events) := by
  induction events with
  | nil =>
    intro q h
    exact h
  | cons e rest ih =>
    intro q h
    exact ih (qstep q e) (qstep_QWF q e h)

/-- C10 (confirmed): if a task is pending (enqueued but not yet started) when
`clear()` is called, then after the clear its promise never settles — along
every continuation of events it is never in `settled` and never even in
flight. -/
theorem clear_drops_pending_forever (k : Nat) (pre post : List QEvent) (id : Nat)
    (hpend : id ∈ (runQueue (RequestQueue.mk0 k) pre).queue) :
    id ∉ (runQueue ((runQueue (RequestQueue.mk0 k) pre).clear) post).settled ∧
    id ∉ (runQueue ((runQueue (RequestQueue.mk0 k) pre).clear) post).processing := by
  have hwf : QWF (runQueue (RequestQueue.mk0 k) pre) :=
    runQueue_QWF pre (RequestQueue.mk0 k)
      ⟨by simp [qids, RequestQueue.mk0], by simp [qids, RequestQueue.mk0]⟩
  obtain ⟨hnd, hbound⟩ := hwf
  have hmemq : id ∈ qids (runQueue (RequestQueue.mk0 k) pre) := by
    unfold qids
    exact List.mem_append_left _ (List.mem_append_left _ hpend)
  have hid_lt : id < (runQueue (RequestQueue.mk0 k) pre).nextId := hbound id hmemq
  have hnd₂ := hnd
  unfold qids at hnd₂
  rw [List.nodup_append] at hnd₂
  obtain ⟨hndqp, _hnds, hdisj₂⟩ := hnd₂
  rw [List.nodup_append] at hndqp
  obtain ⟨_hndq, _hndp, hdisj₁⟩ := hndqp
  have hnp : id ∉ (runQueue (RequestQueue.mk0 k) pre).processing := hdisj₁ hpend
  have hns : id ∉ (runQueue (RequestQueue.mk0 k) pre).settled :=
    hdisj₂ (List.mem_append_left _ hpend)
  have hdead : deadId ((runQueue (RequestQueue.mk0 k) pre).clear) id :=
    ⟨hid_lt, List.not_mem_nil id, hnp, hns⟩
  have hfinal := runQueue_dead post ((runQueue (RequestQueue.mk0 k) pre).clear) id hdead
  exact ⟨hfinal.2.2.2, hfinal.2.2.1⟩

/-- C10 (witness): with `maxConcurrency = 1`, enqueue two tasks (the first
starts, the second stays pending), clear, then complete the first and enqueue
another: task 1 never settles and never starts. -/
theorem clear_drops_pending_forever_witness :
    (1 : Nat) ∉ (runQueue ((runQueue (RequestQueue.mk0 1) [.enqueue, .enqueue]).clear)
      [.complete 0, .enqueue]).settled ∧
    (1 : Nat) ∉ (runQueue ((runQueue (RequestQueue.mk0 1) [.enqueue, .enqueue]).clear)
      [.complete 0, .enqueue]).processing :=
  clear_drops_pending_forever 1 [.enqueue, .enqueue] [.complete 0, .enqueue] 1 (by decide)

end LlmAnalyzer
